import Mathlib

/-! Verification of `static/css/js/ai.js`.

The script binds one asynchronous click handler, `getRecommendations`, to the
button `recommendBtn`.  The handler reads the text field `ideaInput`, posts it to
`/recommend` and writes the outcome into the elements `loading` and `result`.

The embedding is shallow.  The four DOM slots the handler touches, together with
the calls it makes to `alert` and `fetch`, form the record `Page`.  The handler is
an `async` function with two suspension points (`await fetch(...)` on line 14 and
`await response.json()` on line 20), so it is split at these points into three
pieces of straight-line code: `getRecommendations` (lines 4-18, up to the first
`await`), `resumeFetch` (the settlement of the first `await`) and `resumeJson`
(lines 20-29, from the settlement of the second `await` to the end).  The
`try`/`catch` of lines 13-35 is the combinator `tryCatch`.  The browser's event
loop, which runs these pieces one at a time and interleaves the pieces of
different invocations, is the transition function `step` on `World`.

JavaScript strings are Lean strings (sequences of Unicode scalar values; lone
surrogates are outside the model).  A JavaScript `Number` is observed by this
script only through `ToBoolean` and `ToString`, and is represented by these two
observations.
-/

namespace AiJs

/-! ## JavaScript values -/

/-- A JavaScript Number as obtained from `JSON.parse`, represented by the two
observations the script makes of it: its `ToString` text and whether it is
non-zero (`ToBoolean`). -/
structure JSNumber where
  text : String
  nonzero : Bool

/-- The values `JSON.parse` (and hence `response.json()`) can produce. Objects are
association lists; property lookup takes the first binding of a key. -/
inductive JValue where
  | null : JValue
  | bool (b : Bool) : JValue
  | num (n : JSNumber) : JValue
  | str (s : String) : JValue
  | arr (items : List JValue) : JValue
  | obj (fields : List (String × JValue)) : JValue

/-- A thrown value or promise rejection reason: an Error object, observed through
its `message` property (`err.message`, line 34). -/
structure Fault where
  message : String

/-- A value of the language: `none` is `undefined`. -/
abbrev JSValue := Option JValue

/-- What the script observes of the JavaScript engine it runs on: the messages
of the two TypeErrors the handler can raise. The texts differ between engines. -/
structure Engine where
  /-- The message of the TypeError thrown when property `key` of `null` is read. -/
  nullReadMessage : String → String
  /-- The message of the TypeError thrown when an object cannot be converted to a
  primitive value. -/
  toPrimitiveMessage : String

/-- The engine of the worked examples. -/
def sampleEngine : Engine :=
  { nullReadMessage := fun _ => "null has no properties"
    toPrimitiveMessage := "Cannot convert object to primitive value" }

/-- ECMAScript `ToBoolean`. -/
def toBoolean : JSValue → Bool
  | none => false
  | some .null => false
  | some (.bool b) => b
  | some (.num n) => n.nonzero
  | some (.str s) => s != ""
  | some (.arr _) => true
  | some (.obj _) => true

mutual
/-- ECMAScript `ToString` on a parsed JSON value, as performed by a template
literal substitution. An object is converted by `OrdinaryToPrimitive` with hint
string: when it has no own `toString` property the inherited
`Object.prototype.toString` gives `[object Object]`; an own `toString` property
of a parsed object is never callable, and `valueOf`, own or inherited, yields no
primitive, so the conversion throws a TypeError. An array is converted by
`Array.prototype.join`. -/
def JValue.toStr (E : Engine) : JValue → Except Fault String
  | .null => .ok "null"
  | .bool true => .ok "true"
  | .bool false => .ok "false"
  | .num n => .ok n.text
  | .str s => .ok s
  | .arr items => JValue.joinItems E items
  | .obj fields =>
    if fields.any (fun kv => kv.1 == "toString") then .error ⟨E.toPrimitiveMessage⟩
    else .ok "[object Object]"
/-- The body of `Array.prototype.join` with separator `,`: the elements are
converted from left to right, and a conversion that throws ends the join. -/
def JValue.joinItems (E : Engine) : List JValue → Except Fault String
  | [] => .ok ""
  | [x] => JValue.itemStr E x
  | x :: y :: rest =>
    match JValue.itemStr E x with
    | .error err => .error err
    | .ok first =>
      match JValue.joinItems E (y :: rest) with
      | .error err => .error err
      | .ok others => .ok (first ++ "," ++ others)
/-- The text of one array element inside `join`: a `null` element contributes
the empty string, any other element its `ToString`. -/
def JValue.itemStr (E : Engine) : JValue → Except Fault String
  | .null => .ok ""
  | .bool true => .ok "true"
  | .bool false => .ok "false"
  | .num n => .ok n.text
  | .str s => .ok s
  | .arr items => JValue.joinItems E items
  | .obj fields =>
    if fields.any (fun kv => kv.1 == "toString") then .error ⟨E.toPrimitiveMessage⟩
    else .ok "[object Object]"
end

/-- ECMAScript `ToString` on a language value; `undefined` gives `"undefined"`. -/
def toStr (E : Engine) : JSValue → Except Fault String
  | none => .ok "undefined"
  | some v => v.toStr E

/-- Reading property `key` of a parsed JSON value (`data.error`,
`data.recommendations`). Reading a property of `null` throws a TypeError; an
object yields its binding or `undefined`; every other value has neither an
`error` nor a `recommendations` property, so the read yields `undefined`. The
definition is meant for keys that are not built-in property names of strings and
arrays, which holds of the two keys the script reads. -/
def getProp (E : Engine) (v : JValue) (key : String) : Except Fault JSValue :=
  match v with
  | .null => .error ⟨E.nullReadMessage key⟩
  | .obj fields => .ok (fields.lookup key)
  | _ => .ok none

/-! ## `JSON.stringify` -/

/-- A hexadecimal digit in lower case. -/
def hexDigit (n : Nat) : Char :=
  if n < 10 then Char.ofNat (48 + n) else Char.ofNat (87 + n)

/-- ECMAScript `QuoteJSONString`, one code point: the escape of a character
inside a JSON string literal. -/
def quoteJSONChar (c : Char) : List Char :=
  if c = Char.ofNat 8 then [Char.ofNat 92, Char.ofNat 98]
  else if c = Char.ofNat 9 then [Char.ofNat 92, Char.ofNat 116]
  else if c = Char.ofNat 10 then [Char.ofNat 92, Char.ofNat 110]
  else if c = Char.ofNat 12 then [Char.ofNat 92, Char.ofNat 102]
  else if c = Char.ofNat 13 then [Char.ofNat 92, Char.ofNat 114]
  else if c = Char.ofNat 34 then [Char.ofNat 92, Char.ofNat 34]
  else if c = Char.ofNat 92 then [Char.ofNat 92, Char.ofNat 92]
  else if c.toNat < 32 then
    [Char.ofNat 92, Char.ofNat 117, Char.ofNat 48, Char.ofNat 48,
      hexDigit (c.toNat / 16), hexDigit (c.toNat % 16)]
  else [c]

/-- ECMAScript `QuoteJSONString`: the JSON string literal denoting `s`. -/
def quoteJSONString (s : String) : String :=
  ⟨Char.ofNat 34 :: (s.data.flatMap quoteJSONChar ++ [Char.ofNat 34])⟩

mutual
/-- The function `JSON.stringify` on a JSON value, without indentation. -/
def JSON_stringify : JValue → String
  | .null => "null"
  | .bool true => "true"
  | .bool false => "false"
  | .num n => n.text
  | .str s => quoteJSONString s
  | .arr items => "[" ++ JSON_stringifyItems items ++ "]"
  | .obj fields => "\x7b" ++ JSON_stringifyFields fields ++ "\x7d"
/-- The comma-separated elements of an array. -/
def JSON_stringifyItems : List JValue → String
  | [] => ""
  | [x] => JSON_stringify x
  | x :: y :: rest => JSON_stringify x ++ "," ++ JSON_stringifyItems (y :: rest)
/-- The comma-separated `"key":value` members of an object. -/
def JSON_stringifyFields : List (String × JValue) → String
  | [] => ""
  | [(k, v)] => quoteJSONString k ++ ":" ++ JSON_stringify v
  | (k, v) :: m :: rest =>
      quoteJSONString k ++ ":" ++ JSON_stringify v ++ "," ++ JSON_stringifyFields (m :: rest)
end

/-! ## Reading a JSON string literal

The reference against which the request body is checked: the reading of a
string literal prescribed by the JSON grammar (RFC 8259, section 7). It is not
part of the script. -/

/-- The value of a hexadecimal digit, in either case. -/
def hexValue (c : Char) : Option Nat :=
  if 48 ≤ c.toNat ∧ c.toNat ≤ 57 then some (c.toNat - 48)
  else if 97 ≤ c.toNat ∧ c.toNat ≤ 102 then some (c.toNat - 87)
  else if 65 ≤ c.toNat ∧ c.toNat ≤ 70 then some (c.toNat - 55)
  else none

/-- The character denoted by a two-character escape `\e` of the JSON grammar. -/
def unescapeSimple (e : Char) : Option Char :=
  if e = Char.ofNat 34 then some (Char.ofNat 34)
  else if e = Char.ofNat 92 then some (Char.ofNat 92)
  else if e = Char.ofNat 47 then some (Char.ofNat 47)
  else if e = Char.ofNat 98 then some (Char.ofNat 8)
  else if e = Char.ofNat 102 then some (Char.ofNat 12)
  else if e = Char.ofNat 110 then some (Char.ofNat 10)
  else if e = Char.ofNat 114 then some (Char.ofNat 13)
  else if e = Char.ofNat 116 then some (Char.ofNat 9)
  else none

/-- The characters denoted by the inside of a JSON string literal, following the
JSON grammar: a backslash starts an escape, an unescaped quotation mark or
control character is not allowed. -/
def unescapeJSON : List Char → Option (List Char)
  | [] => some []
  | c :: rest =>
    if c = Char.ofNat 92 then
      match rest with
      | [] => none
      | e :: rest1 =>
        if e = Char.ofNat 117 then
          match rest1 with
          | h1 :: h2 :: h3 :: h4 :: rest2 =>
            (hexValue h1).bind fun a => (hexValue h2).bind fun b =>
              (hexValue h3).bind fun c => (hexValue h4).bind fun d =>
                (unescapeJSON rest2).map fun t =>
                  Char.ofNat (((a * 16 + b) * 16 + c) * 16 + d) :: t
          | _ => none
        else
          (unescapeSimple e).bind fun x => (unescapeJSON rest1).map fun t => x :: t
    else if c = Char.ofNat 34 ∨ c.toNat < 32 then none
    else (unescapeJSON rest).map fun t => c :: t

/-- The string denoted by a JSON string literal. -/
def parseJSONString (t : String) : Option String :=
  match t.data with
  | [] => none
  | q :: rest =>
    if q = Char.ofNat 34 ∧ rest.getLast? = some (Char.ofNat 34) then
      (unescapeJSON rest.dropLast).map String.mk
    else none

/-! ## The page and the handler -/

/-- One call of `fetch(url, init)`: line 14-18. -/
structure Request where
  url : String
  method : String
  headers : List (String × String)
  body : String
deriving DecidableEq

/-- The value a fulfilled `fetch` promise carries. The script uses it only for
`response.json()`, whose promise is fulfilled with the parsed body or rejected
(malformed JSON, broken body stream). -/
structure Response where
  json : Except Fault JValue

/-- What the handler reads and writes. -/
structure Page where
  /-- The property `document.getElementById("ideaInput").value`. -/
  ideaInput : String
  /-- The property `document.getElementById("loading").style.display`. -/
  loadingDisplay : String
  /-- The property `document.getElementById("result").innerHTML`, as the markup
  last assigned to it. -/
  resultHTML : String
  /-- The messages of the `alert` calls made so far, oldest first. -/
  alerts : List String
  /-- The `fetch` calls made so far, oldest first. -/
  requests : List Request
deriving DecidableEq

/-- Where one invocation of the `async` function stands. -/
inductive Status where
  /-- Suspended in `await fetch(...)`, line 14. -/
  | awaitFetch : Status
  /-- Suspended in `await response.json()`, line 20. -/
  | awaitJson (response : Response) : Status
  /-- Completed normally: the promise of the invocation is fulfilled. -/
  | returned : Status
  /-- An exception is propagating out of the current block; at the top level of
  the function, the promise of the invocation is rejected with it. -/
  | threw (err : Fault) : Status

/-- The statement `try { body } catch (err) { handler }`: an exception leaving
the body is passed to the handler, which runs on the page as the body left it. -/
def tryCatch (handler : Fault → Page → Page × Status) (body : Page × Status) :
    Page × Status :=
  match body with
  | (p, .threw err) => handler err p
  | other => other

/-- Settling of an `await` inside a block: a rejection is thrown at the `await`. -/
def awaited {α : Type} (outcome : Except Fault α) (p : Page)
    (rest : α → Page → Page × Status) : Page × Status :=
  match outcome with
  | .error err => (p, .threw err)
  | .ok v => rest v p

/-- The text passed to `alert` on line 6. -/
def warningText : String := "⚠️ Please enter an idea first!"

/-- The `catch (err)` block, lines 31-35. -/
def catchBlock (err : Fault) (p : Page) : Page × Status :=
  let p := { p with loadingDisplay := "none" }
  let p := { p with resultHTML :=
    "<p style=\"color:red;\">⚠️ Error: " ++ err.message ++ "</p>" }
  (p, .returned)

/-- The handler from its entry to its first suspension, lines 4-18. -/
def getRecommendations (p : Page) : Page × Status :=
  let idea := p.ideaInput
  if idea = "" then
    let p := { p with alerts := p.alerts ++ [warningText] }
    (p, .returned)
  else
    let p := { p with loadingDisplay := "block" }
    let p := { p with resultHTML := "" }
    tryCatch catchBlock <|
      let p := { p with requests := p.requests ++ [
        { url := "/recommend"
          method := "POST"
          headers := [("Content-Type", "application/json")]
          body := JSON_stringify (.obj [("idea", .str idea)]) }] }
      (p, .awaitFetch)

/-- The handler from the settling of `await fetch(...)` (line 14) to its next
suspension in `await response.json()` (line 20). -/
def resumeFetch (outcome : Except Fault Response) (p : Page) : Page × Status :=
  tryCatch catchBlock <|
    awaited outcome p fun response p =>
      (p, .awaitJson response)

/-- The handler from the settling of `await response.json()` (line 20) to its
end, lines 20-35. -/
def resumeJson (E : Engine) (outcome : Except Fault JValue) (p : Page) : Page × Status :=
  tryCatch catchBlock <|
    awaited outcome p fun data p =>
      let p := { p with loadingDisplay := "none" }
      match getProp E data "error" with
      | .error err => (p, .threw err)
      | .ok dataError =>
        if toBoolean dataError then
          match toStr E dataError with
          | .error err => (p, .threw err)
          | .ok text =>
            let p := { p with resultHTML := "<p style=\"color:red;\">❌ " ++ text ++ "</p>" }
            (p, .returned)
        else
          match getProp E data "recommendations" with
          | .error err => (p, .threw err)
          | .ok dataRecommendations =>
            match toStr E dataRecommendations with
            | .error err => (p, .threw err)
            | .ok text =>
              let p := { p with resultHTML :=
                "<h3>✅ Recommendations:</h3><p>" ++ text ++ "</p>" }
              (p, .returned)

/-! ## The event loop -/

/-- The page together with every invocation of the handler made so far, in the
order of the clicks that started them. -/
structure World where
  page : Page
  calls : List Status

/-- What can happen next. -/
inductive Event where
  /-- The user replaces the content of the text field. -/
  | input (value : String) : Event
  /-- A click on `recommendBtn`: the listener of line 1 invokes the handler. -/
  | click : Event
  /-- The `fetch` promise awaited by invocation `k` settles. -/
  | fetchSettled (k : Nat) (outcome : Except Fault Response) : Event
  /-- The `response.json()` promise awaited by invocation `k` settles. -/
  | jsonSettled (k : Nat) : Event

/-- One turn of the event loop. An event that is not enabled (settling a promise
nobody awaits) gives `none`. -/
def step (E : Engine) (w : World) : Event → Option World
  | .input value => some { w with page := { w.page with ideaInput := value } }
  | .click =>
    let r := getRecommendations w.page
    some { page := r.1, calls := w.calls ++ [r.2] }
  | .fetchSettled k outcome =>
    match w.calls[k]? with
    | some .awaitFetch =>
      let r := resumeFetch outcome w.page
      some { page := r.1, calls := w.calls.set k r.2 }
    | _ => none
  | .jsonSettled k =>
    match w.calls[k]? with
    | some (.awaitJson response) =>
      let r := resumeJson E response.json w.page
      some { page := r.1, calls := w.calls.set k r.2 }
    | _ => none

/-- A sequence of turns. -/
def run (E : Engine) (w : World) : List Event → Option World
  | [] => some w
  | e :: es => (step E w e).bind fun w1 => run E w1 es

/-- One invocation run to completion with nothing else happening in between:
the click, the settling of its `fetch` and, when that fulfils, the settling of
`response.json()`. -/
def runToCompletion (E : Engine) (net : Except Fault Response) (p : Page) : Page × Status :=
  match getRecommendations p with
  | (p1, .awaitFetch) =>
    match resumeFetch net p1 with
    | (p2, .awaitJson response) => resumeJson E response.json p2
    | r2 => r2
  | r1 => r1

/-! ## Notions used to state the claims about interleaved invocations -/

/-- An invocation is outstanding while it is suspended in one of its two
`await`s: its request has been issued and its outcome is not yet rendered. -/
def Status.outstanding : Status → Bool
  | .awaitFetch => true
  | .awaitJson _ => true
  | .returned => false
  | .threw _ => false

/-- Some invocation is outstanding. -/
def World.anyOutstanding (w : World) : Bool :=
  w.calls.any Status.outstanding

/-- The loading indicator is shown: its `display` is not `none`. -/
def Page.loadingVisible (p : Page) : Bool :=
  p.loadingDisplay != "none"

/-- The event is a click on the button. -/
def Event.isClick : Event → Bool
  | .click => true
  | _ => false

/-- No submission of the sequence, that is no click with a non-empty idea,
happens while an invocation is outstanding. -/
def noOverlap (E : Engine) (w : World) : List Event → Bool
  | [] => true
  | e :: es =>
    !(e.isClick && w.page.ideaInput != "" && w.anyOutstanding) &&
      match step E w e with
      | some w1 => noOverlap E w1 es
      | none => true

/-- The event by which the network outcome `nets k` of invocation `k` reaches
the invocation next: the settling of `response.json()` when the invocation is
suspended there, the settling of `fetch` otherwise. -/
def deliver (nets : Nat → Except Fault Response) (w : World) (k : Nat) : Event :=
  match w.calls[k]? with
  | some (.awaitJson _) => .jsonSettled k
  | _ => .fetchSettled k (nets k)

/-- The turns of the event loop in which the invocations named by the schedule are
resumed one after the other, invocation `k` receiving the network outcome
`nets k`. -/
def runSchedule (E : Engine) (nets : Nat → Except Fault Response) (w : World) :
    List Nat → Option World
  | [] => some w
  | k :: ks => (step E w (deliver nets w k)).bind fun w1 => runSchedule E nets w1 ks

/-! ## Basic facts about the three pieces of the handler -/

theorem getRecommendations_of_empty (p : Page) (h : p.ideaInput = "") :
    getRecommendations p
      = ({ p with alerts := p.alerts ++ ["⚠️ Please enter an idea first!"] }, .returned) := by
  simp [getRecommendations, h, warningText]

theorem getRecommendations_of_nonempty (p : Page) (h : p.ideaInput ≠ "") :
    getRecommendations p
      = ({ p with
            loadingDisplay := "block"
            resultHTML := ""
            requests := p.requests ++ [
              { url := "/recommend"
                method := "POST"
                headers := [("Content-Type", "application/json")]
                body := JSON_stringify (.obj [("idea", .str p.ideaInput)]) }] },
          .awaitFetch) := by
  simp [getRecommendations, h, tryCatch]

theorem resumeFetch_ok (response : Response) (p : Page) :
    resumeFetch (.ok response) p = (p, .awaitJson response) := by
  simp [resumeFetch, awaited, tryCatch]

theorem resumeFetch_error (err : Fault) (p : Page) :
    resumeFetch (.error err) p
      = ({ p with
            loadingDisplay := "none"
            resultHTML := "<p style=\"color:red;\">⚠️ Error: " ++ err.message ++ "</p>" },
          .returned) := by
  simp [resumeFetch, awaited, tryCatch, catchBlock]

theorem resumeJson_error (E : Engine) (err : Fault) (p : Page) :
    resumeJson E (.error err) p
      = ({ p with
            loadingDisplay := "none"
            resultHTML := "<p style=\"color:red;\">⚠️ Error: " ++ err.message ++ "</p>" },
          .returned) := by
  simp [resumeJson, awaited, tryCatch, catchBlock]

theorem resumeJson_null (E : Engine) (p : Page) :
    resumeJson E (.ok .null) p
      = ({ p with
            loadingDisplay := "none"
            resultHTML :=
              "<p style=\"color:red;\">⚠️ Error: " ++ E.nullReadMessage "error" ++ "</p>" },
          .returned) := by
  simp [resumeJson, awaited, tryCatch, catchBlock, getProp]

theorem resumeJson_truthy (E : Engine) (data : JValue) (e : JSValue) (text : String) (p : Page)
    (he : getProp E data "error" = .ok e) (ht : toBoolean e = true)
    (hs : toStr E e = .ok text) :
    resumeJson E (.ok data) p
      = ({ p with
            loadingDisplay := "none"
            resultHTML := "<p style=\"color:red;\">❌ " ++ text ++ "</p>" },
          .returned) := by
  simp [resumeJson, awaited, tryCatch, he, ht, hs]

theorem resumeJson_truthy_throws (E : Engine) (data : JValue) (e : JSValue) (err : Fault)
    (p : Page) (he : getProp E data "error" = .ok e) (ht : toBoolean e = true)
    (hs : toStr E e = .error err) :
    resumeJson E (.ok data) p
      = ({ p with
            loadingDisplay := "none"
            resultHTML := "<p style=\"color:red;\">⚠️ Error: " ++ err.message ++ "</p>" },
          .returned) := by
  simp [resumeJson, awaited, tryCatch, catchBlock, he, ht, hs]

theorem resumeJson_falsy (E : Engine) (data : JValue) (e r : JSValue) (text : String) (p : Page)
    (he : getProp E data "error" = .ok e) (ht : toBoolean e = false)
    (hr : getProp E data "recommendations" = .ok r) (hs : toStr E r = .ok text) :
    resumeJson E (.ok data) p
      = ({ p with
            loadingDisplay := "none"
            resultHTML := "<h3>✅ Recommendations:</h3><p>" ++ text ++ "</p>" },
          .returned) := by
  simp [resumeJson, awaited, tryCatch, he, ht, hr, hs]

theorem resumeJson_falsy_throws (E : Engine) (data : JValue) (e r : JSValue) (err : Fault)
    (p : Page) (he : getProp E data "error" = .ok e) (ht : toBoolean e = false)
    (hr : getProp E data "recommendations" = .ok r) (hs : toStr E r = .error err) :
    resumeJson E (.ok data) p
      = ({ p with
            loadingDisplay := "none"
            resultHTML := "<p style=\"color:red;\">⚠️ Error: " ++ err.message ++ "</p>" },
          .returned) := by
  simp [resumeJson, awaited, tryCatch, catchBlock, he, ht, hr, hs]

theorem runToCompletion_of_nonempty (E : Engine) (net : Except Fault Response) (p : Page)
    (h : p.ideaInput ≠ "") :
    runToCompletion E net p =
      match net with
      | .error err => resumeFetch (.error err) (getRecommendations p).1
      | .ok response => resumeJson E response.json (getRecommendations p).1 := by
  cases net with
  | error err => simp [runToCompletion, getRecommendations_of_nonempty p h, resumeFetch_error]
  | ok response => simp [runToCompletion, getRecommendations_of_nonempty p h, resumeFetch_ok]

/-! ## The request body can be read back -/

theorem unescapeJSON_plain (c : Char) (rest : List Char) (h92 : c ≠ Char.ofNat 92)
    (h34 : c ≠ Char.ofNat 34) (h32 : ¬ c.toNat < 32) :
    unescapeJSON (c :: rest) = (unescapeJSON rest).map fun t => c :: t := by
  have : unescapeJSON (c :: rest)
      = if c = Char.ofNat 92 then unescapeJSON (Char.ofNat 92 :: rest)
        else if c = Char.ofNat 34 ∨ c.toNat < 32 then none
        else (unescapeJSON rest).map fun t => c :: t := by
    by_cases h : c = Char.ofNat 92
    · simp [h]
    · rcases rest with _ | ⟨e, _ | ⟨a, _ | ⟨b, _ | ⟨c1, _ | ⟨d, r⟩⟩⟩⟩⟩ <;>
        simp [unescapeJSON, h]
  simp [this, h92, h34, h32]

theorem unescapeJSON_simple (e x : Char) (rest : List Char) (h117 : e ≠ Char.ofNat 117)
    (hx : unescapeSimple e = some x) :
    unescapeJSON (Char.ofNat 92 :: e :: rest) = (unescapeJSON rest).map fun t => x :: t := by
  have : unescapeJSON (Char.ofNat 92 :: e :: rest)
      = if e = Char.ofNat 117 then unescapeJSON (Char.ofNat 92 :: Char.ofNat 117 :: rest)
        else (unescapeSimple e).bind fun x => (unescapeJSON rest).map fun t => x :: t := by
    by_cases h : e = Char.ofNat 117
    · simp [h]
    · rcases rest with _ | ⟨a, _ | ⟨b, _ | ⟨c, _ | ⟨d, r⟩⟩⟩⟩ <;> simp [unescapeJSON, h]
  simp [this, h117, hx]

theorem unescapeJSON_hex (h1 h2 h3 h4 : Char) (a b c d : Nat) (rest : List Char)
    (e1 : hexValue h1 = some a) (e2 : hexValue h2 = some b) (e3 : hexValue h3 = some c)
    (e4 : hexValue h4 = some d) :
    unescapeJSON (Char.ofNat 92 :: Char.ofNat 117 :: h1 :: h2 :: h3 :: h4 :: rest)
      = (unescapeJSON rest).map fun t =>
          Char.ofNat (((a * 16 + b) * 16 + c) * 16 + d) :: t := by
  simp [unescapeJSON, e1, e2, e3, e4]

theorem unescapeJSON_quoteJSONChar (c : Char) (tail : List Char) :
    unescapeJSON (quoteJSONChar c ++ tail) = (unescapeJSON tail).map fun t => c :: t := by
  unfold quoteJSONChar
  split_ifs with h8 h9 h10 h12 h13 h34 h92 hlt
  · subst h8; exact unescapeJSON_simple _ _ tail (by decide) (by decide)
  · subst h9; exact unescapeJSON_simple _ _ tail (by decide) (by decide)
  · subst h10; exact unescapeJSON_simple _ _ tail (by decide) (by decide)
  · subst h12; exact unescapeJSON_simple _ _ tail (by decide) (by decide)
  · subst h13; exact unescapeJSON_simple _ _ tail (by decide) (by decide)
  · subst h34; exact unescapeJSON_simple _ _ tail (by decide) (by decide)
  · subst h92; exact unescapeJSON_simple _ _ tail (by decide) (by decide)
  · have hm : ∀ m : Fin 16, hexValue (hexDigit m.val) = some m.val := by decide
    have h0 : hexValue (Char.ofNat 48) = some 0 := by decide
    have hhi := hm ⟨c.toNat / 16, by omega⟩
    have hlo := hm ⟨c.toNat % 16, Nat.mod_lt _ (by decide)⟩
    rw [List.cons_append, List.cons_append, List.cons_append, List.cons_append,
      List.cons_append, List.cons_append, List.nil_append,
      unescapeJSON_hex _ _ _ _ 0 0 (c.toNat / 16) (c.toNat % 16) tail h0 h0 hhi hlo]
    have hc : Char.ofNat (((0 * 16 + 0) * 16 + c.toNat / 16) * 16 + c.toNat % 16) = c := by
      have : ((0 * 16 + 0) * 16 + c.toNat / 16) * 16 + c.toNat % 16 = c.toNat := by omega
      rw [this]
      exact Char.ofNat_toNat c
    rw [hc]
  · exact unescapeJSON_plain c tail h92 h34 hlt

theorem unescapeJSON_flatMap (cs : List Char) (tail : List Char) :
    unescapeJSON (cs.flatMap quoteJSONChar ++ tail)
      = (unescapeJSON tail).map fun t => cs ++ t := by
  induction cs with
  | nil => simp
  | cons c cs ih =>
    rw [List.flatMap_cons, List.append_assoc, unescapeJSON_quoteJSONChar, ih]
    cases unescapeJSON tail <;> simp

/-- Reading back the literal written by `QuoteJSONString` gives the string. -/
theorem parseJSONString_quoteJSONString (s : String) :
    parseJSONString (quoteJSONString s) = some s := by
  have h := unescapeJSON_flatMap s.data []
  simp [parseJSONString, quoteJSONString, List.getLast?_append, List.dropLast_append_of_ne_nil]
  simp only [List.append_nil] at h
  exact ⟨s.data, by simpa [unescapeJSON] using h, rfl⟩

/-! ## Completed invocations -/

/-- Whatever `response.json()` settles with, the last piece of the handler
hides the loading indicator, replaces the result markup by a text that does not
depend on the page, touches nothing else and returns normally. -/
theorem resumeJson_overwrites (E : Engine) (outcome : Except Fault JValue) :
    ∃ html : String, ∀ p : Page,
      resumeJson E outcome p
        = ({ p with loadingDisplay := "none", resultHTML := html }, .returned) := by
  cases outcome with
  | error err => exact ⟨_, fun p => resumeJson_error E err p⟩
  | ok data =>
    cases he : getProp E data "error" with
    | error err =>
      exact ⟨"<p style=\"color:red;\">⚠️ Error: " ++ err.message ++ "</p>", fun p => by
        simp [resumeJson, awaited, tryCatch, catchBlock, he]⟩
    | ok e =>
      cases ht : toBoolean e with
      | true =>
        cases hs : toStr E e with
        | error err => exact ⟨_, fun p => resumeJson_truthy_throws E data e err p he ht hs⟩
        | ok text => exact ⟨_, fun p => resumeJson_truthy E data e text p he ht hs⟩
      | false =>
        cases hr : getProp E data "recommendations" with
        | error err =>
          exact ⟨"<p style=\"color:red;\">⚠️ Error: " ++ err.message ++ "</p>", fun p => by
            simp [resumeJson, awaited, tryCatch, catchBlock, he, ht, hr]⟩
        | ok r =>
          cases hs : toStr E r with
          | error err =>
            exact ⟨_, fun p => resumeJson_falsy_throws E data e r err p he ht hr hs⟩
          | ok text => exact ⟨_, fun p => resumeJson_falsy E data e r text p he ht hr hs⟩

/-- A completed invocation with a non-empty idea: the request is appended, the
loading indicator is hidden and the result markup is a text that depends on the
network outcome only. -/
theorem runToCompletion_overwrites (E : Engine) (net : Except Fault Response) :
    ∃ html : String, ∀ p : Page, p.ideaInput ≠ "" →
      runToCompletion E net p
        = ({ p with
              loadingDisplay := "none"
              resultHTML := html
              requests := p.requests ++ [
                { url := "/recommend"
                  method := "POST"
                  headers := [("Content-Type", "application/json")]
                  body := JSON_stringify (.obj [("idea", .str p.ideaInput)]) }] },
            .returned) := by
  cases net with
  | error err =>
    refine ⟨"<p style=\"color:red;\">⚠️ Error: " ++ err.message ++ "</p>", fun p h => ?_⟩
    rw [runToCompletion_of_nonempty E _ p h]
    simp [getRecommendations_of_nonempty p h, resumeFetch_error]
  | ok response =>
    obtain ⟨html, hhtml⟩ := resumeJson_overwrites E response.json
    refine ⟨html, fun p h => ?_⟩
    rw [runToCompletion_of_nonempty E _ p h]
    simp [getRecommendations_of_nonempty p h, hhtml]

/-- The function `runToCompletion` is what the event loop does when an invocation
whose `fetch` fulfils runs with no other event in between. -/
theorem run_single_fulfilled (E : Engine) (p : Page) (cs : List Status) (response : Response)
    (h : p.ideaInput ≠ "") :
    run E ⟨p, cs⟩ [.click, .fetchSettled cs.length (.ok response), .jsonSettled cs.length]
      = some ⟨(runToCompletion E (.ok response) p).1,
          cs ++ [(runToCompletion E (.ok response) p).2]⟩ := by
  obtain ⟨html, hhtml⟩ := resumeJson_overwrites E response.json
  rw [runToCompletion_of_nonempty E _ p h]
  simp [run, step, getRecommendations_of_nonempty p h, resumeFetch_ok, hhtml]

/-- The function `runToCompletion` is what the event loop does when an invocation
whose `fetch` rejects runs with no other event in between. -/
theorem run_single_rejected (E : Engine) (p : Page) (cs : List Status) (err : Fault)
    (h : p.ideaInput ≠ "") :
    run E ⟨p, cs⟩ [.click, .fetchSettled cs.length (.error err)]
      = some ⟨(runToCompletion E (.error err) p).1,
          cs ++ [(runToCompletion E (.error err) p).2]⟩ := by
  rw [runToCompletion_of_nonempty E _ p h]
  simp [run, step, getRecommendations_of_nonempty p h, resumeFetch_error]

/-! ## The claims about a single invocation -/

/-- C1: when the idea field holds the empty string, an invocation of
`getRecommendations` shows the warning alert and returns at once; it makes no
`fetch` call and leaves the loading display and the result markup as they were. -/
theorem getRecommendations_empty_idea (p : Page) (h : p.ideaInput = "") :
    (getRecommendations p).2 = .returned ∧
    (getRecommendations p).1.alerts = p.alerts ++ ["⚠️ Please enter an idea first!"] ∧
    (getRecommendations p).1.requests = p.requests ∧
    (getRecommendations p).1.loadingDisplay = p.loadingDisplay ∧
    (getRecommendations p).1.resultHTML = p.resultHTML := by
  simp [getRecommendations_of_empty p h]

theorem getRecommendations_empty_idea_witness :
    (getRecommendations ⟨"", "block", "<p>old</p>", [], []⟩).2 = .returned ∧
    (getRecommendations ⟨"", "block", "<p>old</p>", [], []⟩).1.alerts
      = ["⚠️ Please enter an idea first!"] ∧
    (getRecommendations ⟨"", "block", "<p>old</p>", [], []⟩).1.requests = [] ∧
    (getRecommendations ⟨"", "block", "<p>old</p>", [], []⟩).1.loadingDisplay = "block" ∧
    (getRecommendations ⟨"", "block", "<p>old</p>", [], []⟩).1.resultHTML = "<p>old</p>" :=
  getRecommendations_empty_idea ⟨"", "block", "<p>old</p>", [], []⟩ rfl

/-- C2, refuted as stated: the idea `"   "` consists of three spaces, yet the
invocation shows no alert and issues a request whose body carries the spaces. -/
theorem getRecommendations_blank_idea_is_sent :
    "   ".toList.all Char.isWhitespace = true ∧
    (getRecommendations ⟨"   ", "none", "", [], []⟩).1.alerts = [] ∧
    (getRecommendations ⟨"   ", "none", "", [], []⟩).1.requests
      = [⟨"/recommend", "POST", [("Content-Type", "application/json")],
          "\x7b\"idea\":\"   \"\x7d"⟩] ∧
    ¬ ((getRecommendations ⟨"   ", "none", "", [], []⟩).1.requests = [] ∧
        (getRecommendations ⟨"   ", "none", "", [], []⟩).1.alerts
          = ["⚠️ Please enter an idea first!"]) := by
  decide

/-- C2, amended: the guard of line 5 tests for the empty string only. For every
page, the invocation shows the warning and makes no `fetch` call when the idea is
the empty string; for every other idea, whitespace-only ones included, it shows
no warning and makes exactly one `fetch` call. -/
theorem getRecommendations_guard (p : Page) :
    (getRecommendations p).1.alerts
      = (if p.ideaInput = "" then p.alerts ++ ["⚠️ Please enter an idea first!"]
          else p.alerts) ∧
    (getRecommendations p).1.requests
      = (if p.ideaInput = "" then p.requests
          else p.requests ++ [
            { url := "/recommend"
              method := "POST"
              headers := [("Content-Type", "application/json")]
              body := JSON_stringify (.obj [("idea", .str p.ideaInput)]) }]) := by
  by_cases h : p.ideaInput = ""
  · simp [getRecommendations_of_empty p h, h]
  · simp [getRecommendations_of_nonempty p h, h]

/-- C3: with a non-empty idea the invocation reaches its suspension in
`await fetch(...)` having made exactly one `fetch` call, a POST to `/recommend`
with header `Content-Type: application/json` and body
`JSON.stringify({ idea })`, that is `{"idea":` followed by the JSON string literal
of the idea and `}`, a literal that reads back as the idea, character for
character; the loading display is `block` and the result markup is empty,
whatever it was before. -/
theorem getRecommendations_suspends (p : Page) (h : p.ideaInput ≠ "") :
    (getRecommendations p).2 = .awaitFetch ∧
    (getRecommendations p).1.requests
      = p.requests ++ [
          { url := "/recommend"
            method := "POST"
            headers := [("Content-Type", "application/json")]
            body := "\x7b\"idea\":" ++ quoteJSONString p.ideaInput ++ "\x7d" }] ∧
    parseJSONString (quoteJSONString p.ideaInput) = some p.ideaInput ∧
    (getRecommendations p).1.loadingDisplay = "block" ∧
    (getRecommendations p).1.resultHTML = "" ∧
    (getRecommendations p).1.alerts = p.alerts := by
  have hbody : JSON_stringify (.obj [("idea", .str p.ideaInput)])
      = "\x7b\"idea\":" ++ quoteJSONString p.ideaInput ++ "\x7d" := rfl
  refine ⟨?_, ?_, parseJSONString_quoteJSONString _, ?_, ?_, ?_⟩ <;>
    simp [getRecommendations_of_nonempty p h, hbody]

theorem getRecommendations_suspends_witness :
    (getRecommendations ⟨"a coffee shop", "none", "<p>old</p>", [], []⟩).2 = .awaitFetch ∧
    (getRecommendations ⟨"a coffee shop", "none", "<p>old</p>", [], []⟩).1.requests
      = [⟨"/recommend", "POST", [("Content-Type", "application/json")],
          "\x7b\"idea\":\"a coffee shop\"\x7d"⟩] :=
  ⟨(getRecommendations_suspends ⟨"a coffee shop", "none", "<p>old</p>", [], []⟩
      (by decide)).1,
    by decide⟩

/-- C4: with a non-empty idea, when the body parses to an object without an
`error` field whose `recommendations` field is the string `X`, the completed
invocation leaves the result markup `<h3>✅ Recommendations:</h3><p>X</p>` and the
loading display `none`. -/
theorem runToCompletion_success (E : Engine) (p : Page) (fields : List (String × JValue))
    (X : String) (h : p.ideaInput ≠ "") (hnoerr : fields.lookup "error" = none)
    (hrec : fields.lookup "recommendations" = some (.str X)) :
    (runToCompletion E (.ok ⟨.ok (.obj fields)⟩) p).1.resultHTML
      = "<h3>✅ Recommendations:</h3><p>" ++ X ++ "</p>" ∧
    (runToCompletion E (.ok ⟨.ok (.obj fields)⟩) p).1.loadingDisplay = "none" ∧
    (runToCompletion E (.ok ⟨.ok (.obj fields)⟩) p).2 = .returned := by
  rw [runToCompletion_of_nonempty E _ p h]
  have := resumeJson_falsy E (.obj fields) none (some (.str X)) X (getRecommendations p).1
    (by simp [getProp, hnoerr]) rfl (by simp [getProp, hrec]) rfl
  simp [this]

theorem runToCompletion_success_witness :
    (runToCompletion sampleEngine
        (.ok ⟨.ok (.obj [("recommendations", .str "Sell artisan coffee")])⟩)
        ⟨"a coffee shop", "none", "<p>old</p>", [], []⟩).1.resultHTML
      = "<h3>✅ Recommendations:</h3><p>" ++ "Sell artisan coffee" ++ "</p>" :=
  (runToCompletion_success sampleEngine
    ⟨"a coffee shop", "none", "<p>old</p>", [], []⟩
    [("recommendations", .str "Sell artisan coffee")] "Sell artisan coffee"
    (by decide) rfl rfl).1

/-- C5: with a non-empty idea, when the body parses to an object whose `error`
field is the non-empty string `Y`, the completed invocation leaves the result
markup `<p style="color:red;">❌ Y</p>` and the loading display `none`, whether or
not the object also has a `recommendations` field. -/
theorem runToCompletion_application_error (E : Engine) (p : Page)
    (fields : List (String × JValue)) (Y : String) (h : p.ideaInput ≠ "")
    (hY : Y ≠ "") (herr : fields.lookup "error" = some (.str Y)) :
    (runToCompletion E (.ok ⟨.ok (.obj fields)⟩) p).1.resultHTML
      = "<p style=\"color:red;\">❌ " ++ Y ++ "</p>" ∧
    (runToCompletion E (.ok ⟨.ok (.obj fields)⟩) p).1.loadingDisplay = "none" ∧
    (runToCompletion E (.ok ⟨.ok (.obj fields)⟩) p).2 = .returned := by
  rw [runToCompletion_of_nonempty E _ p h]
  have := resumeJson_truthy E (.obj fields) (some (.str Y)) Y (getRecommendations p).1
    (by simp [getProp, herr]) (by simp [toBoolean, hY]) rfl
  simp [this]

theorem runToCompletion_application_error_witness :
    (runToCompletion sampleEngine
        (.ok ⟨.ok (.obj [("recommendations", .str "Sell tea"), ("error", .str "Invalid idea")])⟩)
        ⟨"a coffee shop", "none", "<p>old</p>", [], []⟩).1.resultHTML
      = "<p style=\"color:red;\">❌ " ++ "Invalid idea" ++ "</p>" :=
  (runToCompletion_application_error sampleEngine
    ⟨"a coffee shop", "none", "<p>old</p>", [], []⟩
    [("recommendations", .str "Sell tea"), ("error", .str "Invalid idea")] "Invalid idea"
    (by decide) (by decide) rfl).1

/-- C6: with a non-empty idea, when `fetch` rejects with a fault of message `M`,
or fulfils and `response.json()` rejects with a fault of message `M`, the
invocation catches the fault and returns normally with the result markup
`<p style="color:red;">⚠️ Error: M</p>` and the loading display `none`, and the
one request issued before the suspension stays the only one. -/
theorem runToCompletion_fault (E : Engine) (p : Page) (M : String) (net : Except Fault Response)
    (h : p.ideaInput ≠ "") (hnet : net = .error ⟨M⟩ ∨ net = .ok ⟨.error ⟨M⟩⟩) :
    (runToCompletion E net p).2 = .returned ∧
    (runToCompletion E net p).1.resultHTML
      = "<p style=\"color:red;\">⚠️ Error: " ++ M ++ "</p>" ∧
    (runToCompletion E net p).1.loadingDisplay = "none" ∧
    (runToCompletion E net p).1.requests
      = p.requests ++ [
          { url := "/recommend"
            method := "POST"
            headers := [("Content-Type", "application/json")]
            body := JSON_stringify (.obj [("idea", .str p.ideaInput)]) }] := by
  rw [runToCompletion_of_nonempty E _ p h]
  rcases hnet with rfl | rfl
  · simp [resumeFetch_error, getRecommendations_of_nonempty p h]
  · simp [resumeJson_error, getRecommendations_of_nonempty p h]

theorem runToCompletion_fault_witness :
    (runToCompletion sampleEngine (.error ⟨"Failed to fetch"⟩)
        ⟨"a coffee shop", "none", "<p>old</p>", [], []⟩).1.resultHTML
      = "<p style=\"color:red;\">⚠️ Error: " ++ "Failed to fetch" ++ "</p>" :=
  (runToCompletion_fault sampleEngine
    ⟨"a coffee shop", "none", "<p>old</p>", [], []⟩ "Failed to fetch"
    (.error ⟨"Failed to fetch"⟩) (by decide) (Or.inl rfl)).2.1

/-- C7, refuted as stated: the bodies `{}` and `{"error": ""}` parse, have no
truthy `error` field and no `recommendations` field, and the completed invocation
leaves the success markup with the text `undefined`, which is not of the form
`<p style="color:red;">⚠️ Error: M</p>` for any `M`. -/
theorem runToCompletion_unhandled_shape_renders_success :
    (runToCompletion sampleEngine (.ok ⟨.ok (.obj [])⟩)
        ⟨"a coffee shop", "none", "", [], []⟩).1.resultHTML
      = "<h3>✅ Recommendations:</h3><p>undefined</p>" ∧
    (runToCompletion sampleEngine (.ok ⟨.ok (.obj [("error", .str "")])⟩)
        ⟨"a coffee shop", "none", "", [], []⟩).1.resultHTML
      = "<h3>✅ Recommendations:</h3><p>undefined</p>" ∧
    ¬ ∃ M : String,
      (runToCompletion sampleEngine (.ok ⟨.ok (.obj [])⟩)
          ⟨"a coffee shop", "none", "", [], []⟩).1.resultHTML
        = "<p style=\"color:red;\">⚠️ Error: " ++ M ++ "</p>" := by
  refine ⟨by decide, by decide, ?_⟩
  rintro ⟨M, hM⟩
  have h1 : (runToCompletion sampleEngine (.ok ⟨.ok (.obj [])⟩)
      ⟨"a coffee shop", "none", "", [], []⟩).1.resultHTML
        = "<h3>✅ Recommendations:</h3><p>undefined</p>" := by decide
  rw [h1] at hM
  have h2 := congrArg (fun t : String => t.data[1]?) hM
  simp at h2

/-- C7, amended: with a non-empty idea, let the body parse to a JSON value that
has no truthy `error` field. If the value is `null`, reading `data.error` throws
and the completed invocation leaves the generic error markup with the message of
that TypeError. For every other value the template literal of lines 27-28
converts `data.recommendations` to a string: the field of an object, and
`undefined` when the field is absent or the value is not an object. When the
conversion yields `S`, the invocation leaves the success markup
`<h3>✅ Recommendations:</h3><p>S</p>`; when the conversion throws (the field is
an object with an own `toString` property, or an array that holds one), the
invocation leaves the generic error markup with the message of that TypeError.
The loading display ends `none` and the invocation returns normally. -/
theorem runToCompletion_no_truthy_error (E : Engine) (p : Page) (data : JValue)
    (h : p.ideaInput ≠ "")
    (herr : ∀ fields, data = .obj fields → toBoolean (fields.lookup "error") = false) :
    (runToCompletion E (.ok ⟨.ok data⟩) p).1.resultHTML
      = (match data with
          | .null => "<p style=\"color:red;\">⚠️ Error: " ++ E.nullReadMessage "error" ++ "</p>"
          | .obj fields =>
            match toStr E (fields.lookup "recommendations") with
            | .ok S => "<h3>✅ Recommendations:</h3><p>" ++ S ++ "</p>"
            | .error err => "<p style=\"color:red;\">⚠️ Error: " ++ err.message ++ "</p>"
          | _ => "<h3>✅ Recommendations:</h3><p>undefined</p>") ∧
    (runToCompletion E (.ok ⟨.ok data⟩) p).1.loadingDisplay = "none" ∧
    (runToCompletion E (.ok ⟨.ok data⟩) p).2 = .returned := by
  rw [runToCompletion_of_nonempty E _ p h]
  cases data with
  | null => simp [resumeJson_null]
  | obj fields =>
    cases hs : toStr E (fields.lookup "recommendations") with
    | ok S =>
      have := resumeJson_falsy E (.obj fields) (fields.lookup "error")
        (fields.lookup "recommendations") S (getRecommendations p).1 rfl (herr fields rfl)
        rfl hs
      simp [this, hs]
    | error err =>
      have := resumeJson_falsy_throws E (.obj fields) (fields.lookup "error")
        (fields.lookup "recommendations") err (getRecommendations p).1 rfl (herr fields rfl)
        rfl hs
      simp [this, hs]
  | bool b =>
    have := resumeJson_falsy E (.bool b) none none "undefined" (getRecommendations p).1
      rfl rfl rfl rfl
    simp [this]
  | num n =>
    have := resumeJson_falsy E (.num n) none none "undefined" (getRecommendations p).1
      rfl rfl rfl rfl
    simp [this]
  | str t =>
    have := resumeJson_falsy E (.str t) none none "undefined" (getRecommendations p).1
      rfl rfl rfl rfl
    simp [this]
  | arr items =>
    have := resumeJson_falsy E (.arr items) none none "undefined" (getRecommendations p).1
      rfl rfl rfl rfl
    simp [this]

theorem runToCompletion_no_truthy_error_witness :
    (runToCompletion sampleEngine
        (.ok ⟨.ok (.obj [("error", .str ""),
          ("recommendations", .arr [.num ⟨"42", true⟩, .obj [("toString", .str "x")]])])⟩)
        ⟨"a coffee shop", "none", "<p>old</p>", [], []⟩).1.resultHTML
      = "<p style=\"color:red;\">⚠️ Error: Cannot convert object to primitive value</p>" :=
  (runToCompletion_no_truthy_error sampleEngine
    ⟨"a coffee shop", "none", "<p>old</p>", [], []⟩
    (.obj [("error", .str ""),
      ("recommendations", .arr [.num ⟨"42", true⟩, .obj [("toString", .str "x")]])])
    (by decide) (fun fields hf => by cases hf; rfl)).1

/-- The string conversions of lines 24-28 on sample values: an object without an
own `toString` property, an object with one, an array with a `null` element and
a nested array, and an array that holds an object with an own `toString`. -/
theorem toStr_samples (E : Engine) :
    toStr E (some (.obj [("valueOf", .str "x")])) = .ok "[object Object]" ∧
    toStr E (some (.obj [("toString", .str "x")])) = .error ⟨E.toPrimitiveMessage⟩ ∧
    toStr E (some (.arr [.null, .str "a", .arr [.bool true, .null]])) = .ok ",a,true," ∧
    toStr E (some (.arr [.str "a", .obj [("toString", .null)]]))
      = .error ⟨E.toPrimitiveMessage⟩ ∧
    toStr E none = .ok "undefined" :=
  ⟨rfl, rfl, rfl, rfl, rfl⟩

/-- A truthy `error` field that cannot be converted to a string ends in the
catch block as well. -/
theorem runToCompletion_unconvertible_error (E : Engine) (p : Page) (h : p.ideaInput ≠ "") :
    (runToCompletion E (.ok ⟨.ok (.obj [("error", .obj [("toString", .str "x")])])⟩) p).1.resultHTML
      = "<p style=\"color:red;\">⚠️ Error: " ++ E.toPrimitiveMessage ++ "</p>" := by
  rw [runToCompletion_of_nonempty E _ p h]
  have := resumeJson_truthy_throws E (.obj [("error", .obj [("toString", .str "x")])])
    (some (.obj [("toString", .str "x")])) ⟨E.toPrimitiveMessage⟩ (getRecommendations p).1
    rfl rfl rfl
  simp [this]

/-- C9: with a non-empty idea and a given network outcome, running the invocation
to completion a second time, on the page the first run left, gives the result
markup and loading display of the first run; these two depend on the network
outcome only, not on the page the run started from; and the second run appends
the same request as the first. -/
theorem runToCompletion_twice (E : Engine) (net : Except Fault Response) (p q : Page)
    (hp : p.ideaInput ≠ "") (hq : q.ideaInput ≠ "") :
    (runToCompletion E net (runToCompletion E net p).1).1.resultHTML
      = (runToCompletion E net p).1.resultHTML ∧
    (runToCompletion E net (runToCompletion E net p).1).1.loadingDisplay
      = (runToCompletion E net p).1.loadingDisplay ∧
    (runToCompletion E net q).1.resultHTML = (runToCompletion E net p).1.resultHTML ∧
    (runToCompletion E net q).1.loadingDisplay = (runToCompletion E net p).1.loadingDisplay ∧
    (runToCompletion E net p).1.requests
      = p.requests ++ [
          { url := "/recommend"
            method := "POST"
            headers := [("Content-Type", "application/json")]
            body := JSON_stringify (.obj [("idea", .str p.ideaInput)]) }] ∧
    (runToCompletion E net (runToCompletion E net p).1).1.requests
      = (runToCompletion E net p).1.requests ++ [
          { url := "/recommend"
            method := "POST"
            headers := [("Content-Type", "application/json")]
            body := JSON_stringify (.obj [("idea", .str p.ideaInput)]) }] := by
  obtain ⟨html, hhtml⟩ := runToCompletion_overwrites E net
  have h1 := hhtml p hp
  have hp1 : (runToCompletion E net p).1.ideaInput ≠ "" := by rw [h1]; exact hp
  have h2 := hhtml _ hp1
  have h3 := hhtml q hq
  rw [h2, h3, h1]
  simp

theorem runToCompletion_twice_witness :
    (runToCompletion sampleEngine
        (.ok ⟨.ok (.obj [("recommendations", .str "Sell artisan coffee")])⟩)
        (runToCompletion sampleEngine
          (.ok ⟨.ok (.obj [("recommendations", .str "Sell artisan coffee")])⟩)
          ⟨"a coffee shop", "none", "<p>old</p>", [], []⟩).1).1.resultHTML
      = (runToCompletion sampleEngine
          (.ok ⟨.ok (.obj [("recommendations", .str "Sell artisan coffee")])⟩)
          ⟨"a coffee shop", "none", "<p>old</p>", [], []⟩).1.resultHTML :=
  (runToCompletion_twice sampleEngine
    (.ok ⟨.ok (.obj [("recommendations", .str "Sell artisan coffee")])⟩)
    ⟨"a coffee shop", "none", "<p>old</p>", [], []⟩ ⟨"a tea shop", "block", "", [], []⟩
    (by decide) (by decide)).1

/-! ## Invocations interleaved by the event loop -/

/-- Some invocation is outstanding exactly when the count of outstanding
invocations is positive. -/
theorem anyOutstanding_iff_countP (w : World) :
    w.anyOutstanding = true ↔ 0 < w.calls.countP Status.outstanding := by
  simp [World.anyOutstanding, List.countP_pos_iff]

theorem countP_set_of_outstanding (cs : List Status) (k : Nat) (s t : Status)
    (hk : cs[k]? = some s) (hs : s.outstanding = true) :
    (cs.set k t).countP Status.outstanding + 1
      = cs.countP Status.outstanding + (if t.outstanding = true then 1 else 0) := by
  obtain ⟨hlt, hget⟩ := List.getElem?_eq_some.mp hk
  have hle := List.boole_getElem_le_countP Status.outstanding cs k hlt
  rw [List.countP_set Status.outstanding cs k t hlt]
  simp only [hget, hs, if_true] at hle ⊢
  omega

/-- What one turn of the event loop does to the loading display and to the
number of outstanding invocations: a click with an empty idea changes neither; a
click with a non-empty idea shows the indicator and adds an invocation; a
settling either changes neither or hides the indicator and completes one
invocation; an edit of the text field changes neither. -/
theorem step_effect (E : Engine) (w w1 : World) (e : Event) (h : step E w e = some w1) :
    (e.isClick = true ∧ w1.page.loadingDisplay = w.page.loadingDisplay ∧
      w1.calls.countP Status.outstanding = w.calls.countP Status.outstanding) ∨
    (e.isClick = true ∧ w.page.ideaInput ≠ "" ∧ w1.page.loadingDisplay = "block" ∧
      w1.calls.countP Status.outstanding = w.calls.countP Status.outstanding + 1) ∨
    (e.isClick = false ∧ w1.page.loadingDisplay = w.page.loadingDisplay ∧
      w1.calls.countP Status.outstanding = w.calls.countP Status.outstanding) ∨
    (e.isClick = false ∧ w1.page.loadingDisplay = "none" ∧
      w1.calls.countP Status.outstanding + 1 = w.calls.countP Status.outstanding) := by
  cases e with
  | input value =>
    simp only [step, Option.some.injEq] at h
    subst h
    simp [Event.isClick]
  | click =>
    simp only [step, Option.some.injEq] at h
    subst h
    by_cases hi : w.page.ideaInput = ""
    · left
      simp [Event.isClick, getRecommendations_of_empty _ hi, Status.outstanding]
    · right; left
      simp [Event.isClick, getRecommendations_of_nonempty _ hi, Status.outstanding, hi]
  | fetchSettled k outcome =>
    simp only [step] at h
    split at h
    · rename_i hk
      simp only [Option.some.injEq] at h
      subst h
      cases outcome with
      | error err =>
        right; right; right
        have := countP_set_of_outstanding w.calls k .awaitFetch .returned hk rfl
        simpa [Event.isClick, resumeFetch_error, Status.outstanding] using this
      | ok response =>
        right; right; left
        have := countP_set_of_outstanding w.calls k .awaitFetch (.awaitJson response) hk rfl
        simpa [Event.isClick, resumeFetch_ok, Status.outstanding] using this
    · exact absurd h (by simp)
  | jsonSettled k =>
    simp only [step] at h
    split at h
    · rename_i response hk
      simp only [Option.some.injEq] at h
      subst h
      obtain ⟨html, hhtml⟩ := resumeJson_overwrites E response.json
      right; right; right
      have := countP_set_of_outstanding w.calls k (.awaitJson response) .returned hk rfl
      simpa [Event.isClick, hhtml, Status.outstanding] using this
    · exact absurd h (by simp)

/-- In every state reached from a state with hidden indicator and no invocation,
a shown loading indicator means that some invocation is outstanding. -/
theorem visible_imp_outstanding (E : Engine) (es : List Event) (w w1 : World)
    (hinv : w.page.loadingVisible = true → w.anyOutstanding = true)
    (hrun : run E w es = some w1) :
    w1.page.loadingVisible = true → w1.anyOutstanding = true := by
  induction es generalizing w with
  | nil =>
    simp only [run, Option.some.injEq] at hrun
    subst hrun
    exact hinv
  | cons e es ih =>
    simp only [run] at hrun
    cases hs : step E w e with
    | none => simp [hs] at hrun
    | some w2 =>
      simp only [hs, Option.bind] at hrun
      refine ih w2 ?_ hrun
      rw [anyOutstanding_iff_countP] at hinv ⊢
      intro hv
      rcases step_effect E w w2 e hs with ⟨-, hd, hc⟩ | ⟨-, -, -, hc⟩ | ⟨-, hd, hc⟩ | ⟨-, hd, -⟩
      · have := hinv (by simpa [Page.loadingVisible, hd] using hv)
        omega
      · omega
      · have := hinv (by simpa [Page.loadingVisible, hd] using hv)
        omega
      · simp [Page.loadingVisible, hd] at hv

/-- When no click with a non-empty idea happens while an invocation is
outstanding, at most one invocation is outstanding at any time, and it is
outstanding exactly while the indicator is shown. -/
theorem noOverlap_invariant (E : Engine) (es : List Event) (w w1 : World)
    (hinv : (w.calls.countP Status.outstanding = 0 ∧ w.page.loadingVisible = false) ∨
      (w.calls.countP Status.outstanding = 1 ∧ w.page.loadingDisplay = "block"))
    (hno : noOverlap E w es = true) (hrun : run E w es = some w1) :
    (w1.calls.countP Status.outstanding = 0 ∧ w1.page.loadingVisible = false) ∨
      (w1.calls.countP Status.outstanding = 1 ∧ w1.page.loadingDisplay = "block") := by
  induction es generalizing w with
  | nil =>
    simp only [run, Option.some.injEq] at hrun
    subst hrun
    exact hinv
  | cons e es ih =>
    simp only [run] at hrun
    cases hs : step E w e with
    | none => simp [hs] at hrun
    | some w2 =>
      simp only [hs, Option.bind] at hrun
      simp only [noOverlap, hs, Bool.and_eq_true, Bool.not_eq_true'] at hno
      refine ih w2 ?_ hno.2 hrun
      have hclick : e.isClick = true → w.page.ideaInput ≠ "" →
          w.calls.countP Status.outstanding = 0 := by
        intro hc hi
        have h1 := hno.1
        simp only [hc, Bool.true_and, Bool.and_eq_false_imp, bne_iff_ne, ne_eq] at h1
        have h2 := anyOutstanding_iff_countP w
        rw [h1 hi] at h2
        simp at h2
        simpa [List.countP_eq_zero] using h2
      rcases step_effect E w w2 e hs with
        ⟨-, hd, hc⟩ | ⟨hk, hi, hd, hc⟩ | ⟨-, hd, hc⟩ | ⟨-, hd, hc⟩
      · rcases hinv with ⟨h0, hv⟩ | ⟨h1, hb⟩
        · left; exact ⟨by omega, by simpa [Page.loadingVisible, hd] using hv⟩
        · right; exact ⟨by omega, by rw [hd]; exact hb⟩
      · have h0 := hclick hk hi
        right; exact ⟨by omega, hd⟩
      · rcases hinv with ⟨h0, hv⟩ | ⟨h1, hb⟩
        · left; exact ⟨by omega, by simpa [Page.loadingVisible, hd] using hv⟩
        · right; exact ⟨by omega, by rw [hd]; exact hb⟩
      · rcases hinv with ⟨h0, -⟩ | ⟨h1, -⟩
        · omega
        · left; exact ⟨by omega, by simp [Page.loadingVisible, hd]⟩

/-- The two ways in which the outcome of invocation `k` can be delivered. -/
theorem step_deliver (E : Engine) (nets : Nat → Except Fault Response) (w w1 : World) (k : Nat)
    (h : step E w (deliver nets w k) = some w1) :
    (∃ response, w.calls[k]? = some (.awaitJson response) ∧
      w1 = { page := (resumeJson E response.json w.page).1, calls := w.calls.set k .returned }) ∨
    (w.calls[k]? = some .awaitFetch ∧
      w1 = { page := (resumeFetch (nets k) w.page).1,
             calls := w.calls.set k (resumeFetch (nets k) w.page).2 }) := by
  cases hk : w.calls[k]? with
  | none => simp [deliver, hk, step] at h
  | some s =>
    cases s with
    | awaitFetch =>
      right
      simp only [deliver, hk, step, Option.some.injEq] at h
      exact ⟨rfl, h.symm⟩
    | awaitJson response =>
      left
      simp only [deliver, hk, step, Option.some.injEq] at h
      obtain ⟨html, hhtml⟩ := resumeJson_overwrites E response.json
      refine ⟨response, rfl, ?_⟩
      rw [← h, hhtml]
    | returned => simp [deliver, hk, step] at h
    | threw err => simp [deliver, hk, step] at h

/-- Delivering outcomes keeps the number of invocations, and an invocation
suspended in `response.json()` holds the response its `fetch` was given. -/
theorem step_deliver_invariant (E : Engine) (nets : Nat → Except Fault Response) (w w1 : World)
    (k : Nat) (h : step E w (deliver nets w k) = some w1)
    (hinv : ∀ j response, w.calls[j]? = some (.awaitJson response) → nets j = .ok response) :
    w1.calls.length = w.calls.length ∧
    ∀ j response, w1.calls[j]? = some (.awaitJson response) → nets j = .ok response := by
  rcases step_deliver E nets w w1 k h with ⟨r, hk, rfl⟩ | ⟨hk, rfl⟩
  · refine ⟨by simp, fun j response hj => ?_⟩
    simp only [List.getElem?_set] at hj
    split at hj
    · split at hj <;> simp at hj
    · exact hinv j response hj
  · refine ⟨by simp, fun j response hj => ?_⟩
    simp only [List.getElem?_set] at hj
    split at hj
    · rename_i hkj
      subst hkj
      cases hn : nets k with
      | error err =>
        rw [hn, resumeFetch_error] at hj
        split at hj <;> simp at hj
      | ok r =>
        rw [hn, resumeFetch_ok] at hj
        split at hj
        · simp only [Option.some.injEq, Status.awaitJson.injEq] at hj
          rw [hj]
        · simp at hj
    · exact hinv j response hj

/-- A resumption touches an outstanding invocation only: the invocation resumed
was outstanding, and every invocation outstanding afterwards was outstanding
before. -/
theorem step_deliver_outstanding (E : Engine) (nets : Nat → Except Fault Response)
    (w w1 : World) (k : Nat) (h : step E w (deliver nets w k) = some w1) :
    (∃ s : Status, w.calls[k]? = some s ∧ s.outstanding = true) ∧
    ∀ (j : Nat) (s1 : Status), w1.calls[j]? = some s1 → s1.outstanding = true →
      ∃ s : Status, w.calls[j]? = some s ∧ s.outstanding = true := by
  have hk : ∃ s : Status, w.calls[k]? = some s ∧ s.outstanding = true := by
    rcases step_deliver E nets w w1 k h with ⟨r, hk, -⟩ | ⟨hk, -⟩
    · exact ⟨_, hk, rfl⟩
    · exact ⟨_, hk, rfl⟩
  refine ⟨hk, fun j s1 hj hs1 => ?_⟩
  have hcalls : ∃ t, w1.calls = w.calls.set k t := by
    rcases step_deliver E nets w w1 k h with ⟨r, -, rfl⟩ | ⟨-, rfl⟩
    · exact ⟨_, rfl⟩
    · exact ⟨_, rfl⟩
  obtain ⟨t, ht⟩ := hcalls
  by_cases hkj : k = j
  · subst hkj; exact hk
  · rw [ht, List.getElem?_set_ne hkj] at hj
    exact ⟨s1, hj, hs1⟩

/-- The facts of `step_deliver_invariant` and `step_deliver_outstanding` along a
whole schedule. -/
theorem runSchedule_invariant (E : Engine) (nets : Nat → Except Fault Response)
    (sched : List Nat) (w w1 : World)
    (hinv : ∀ j response, w.calls[j]? = some (.awaitJson response) → nets j = .ok response)
    (hrun : runSchedule E nets w sched = some w1) :
    w1.calls.length = w.calls.length ∧
    (∀ j response, w1.calls[j]? = some (.awaitJson response) → nets j = .ok response) ∧
    ∀ (j : Nat) (s1 : Status), w1.calls[j]? = some s1 → s1.outstanding = true →
      ∃ s : Status, w.calls[j]? = some s ∧ s.outstanding = true := by
  induction sched generalizing w with
  | nil =>
    simp only [runSchedule, Option.some.injEq] at hrun
    subst hrun
    exact ⟨rfl, hinv, fun j s1 hj hs1 => ⟨s1, hj, hs1⟩⟩
  | cons k ks ih =>
    simp only [runSchedule] at hrun
    cases hs : step E w (deliver nets w k) with
    | none => simp [hs] at hrun
    | some w2 =>
      simp only [hs, Option.bind] at hrun
      obtain ⟨hlen, hinv2⟩ := step_deliver_invariant E nets w w2 k hs hinv
      obtain ⟨hlen1, hinv1, hback⟩ := ih w2 hinv2 hrun
      refine ⟨by omega, hinv1, fun j s1 hj hs1 => ?_⟩
      obtain ⟨s2, hj2, hs2⟩ := hback j s1 hj hs1
      exact (step_deliver_outstanding E nets w w2 k hs).2 j s2 hj2 hs2

/-- Once every invocation has completed, the page shows what the invocation
resumed last would have rendered on its own, and that invocation was outstanding
when the schedule began. -/
theorem runSchedule_last (E : Engine) (nets : Nat → Except Fault Response) (sched : List Nat)
    (w w1 : World)
    (hinv : ∀ j response, w.calls[j]? = some (.awaitJson response) → nets j = .ok response)
    (hrun : runSchedule E nets w sched = some w1) (hne : sched ≠ [])
    (hdone : w1.anyOutstanding = false) :
    ∃ k, sched.getLast? = some k ∧ (∃ s : Status, w.calls[k]? = some s ∧ s.outstanding = true) ∧
      w1.page.loadingDisplay = "none" ∧
      ∀ q : Page, q.ideaInput ≠ "" →
        w1.page.resultHTML = (runToCompletion E (nets k) q).1.resultHTML := by
  induction sched generalizing w with
  | nil => exact absurd rfl hne
  | cons k ks ih =>
    simp only [runSchedule] at hrun
    cases hs : step E w (deliver nets w k) with
    | none => simp [hs] at hrun
    | some w2 =>
      simp only [hs, Option.bind] at hrun
      obtain ⟨hlen, hinv2⟩ := step_deliver_invariant E nets w w2 k hs hinv
      obtain ⟨hkout, hback⟩ := step_deliver_outstanding E nets w w2 k hs
      cases ks with
      | cons k2 rest =>
        obtain ⟨j, hj, ⟨s2, hj2, hs2⟩, hrest⟩ := ih w2 hinv2 hrun (by simp)
        exact ⟨j, by simpa using hj, hback j s2 hj2 hs2, hrest⟩
      | nil =>
        simp only [runSchedule, Option.some.injEq] at hrun
        subst hrun
        refine ⟨k, by simp, hkout, ?_⟩
        rcases step_deliver E nets w w2 k hs with ⟨r, hk, rfl⟩ | ⟨hk, rfl⟩
        · have hn := hinv k r hk
          obtain ⟨html, hhtml⟩ := resumeJson_overwrites E r.json
          refine ⟨by simp [hhtml], fun q hq => ?_⟩
          rw [hn, runToCompletion_of_nonempty E _ q hq]
          simp [hhtml]
        · have hklt := (List.getElem?_eq_some.mp hk).1
          cases hn : nets k with
          | error err =>
            refine ⟨by simp [resumeFetch_error], fun q hq => ?_⟩
            rw [runToCompletion_of_nonempty E _ q hq]
            simp [resumeFetch_error]
          | ok r =>
            exfalso
            rw [hn, resumeFetch_ok] at hdone
            have hmem : Status.awaitJson r ∈ w.calls.set k (.awaitJson r) :=
              List.mem_iff_getElem?.mpr ⟨k, by simp [hklt]⟩
            have : (w.calls.set k (.awaitJson r)).any Status.outstanding = true :=
              List.any_eq_true.mpr ⟨_, hmem, rfl⟩
            simp [World.anyOutstanding, this] at hdone

/-- A click with a non-empty idea, after an edit of the text field, starts an
invocation that is suspended in `await fetch(...)`. -/
theorem run_input_click (E : Engine) (w : World) (a : String) (ha : a ≠ "") :
    ∃ p1 : Page, run E w [.input a, .click] = some ⟨p1, w.calls ++ [.awaitFetch]⟩ := by
  have h1 : (getRecommendations { w.page with ideaInput := a }).2 = .awaitFetch := by
    rw [getRecommendations_of_nonempty _ (by simpa using ha)]
  exact ⟨(getRecommendations { w.page with ideaInput := a }).1, by simp [run, step, h1]⟩

/-- An outstanding entry makes `anyOutstanding` true. -/
theorem anyOutstanding_of_getElem? (w : World) (j : Nat) (s : Status)
    (hj : w.calls[j]? = some s) (hs : s.outstanding = true) : w.anyOutstanding = true :=
  List.any_eq_true.mpr ⟨s, List.mem_iff_getElem?.mpr ⟨j, hj⟩, hs⟩

/-! ## The claims about interleaved invocations -/

/-- C8, refuted as stated: starting with the indicator hidden and no invocation,
two clicks with the idea `a coffee shop` followed by the rejection of the first
`fetch` reach a state in which the second request is still outstanding and the
loading indicator is hidden. -/
theorem loading_hidden_while_outstanding :
    ∃ w : World,
      run sampleEngine ⟨⟨"", "none", "", [], []⟩, []⟩
        [.input "a coffee shop", .click, .click, .fetchSettled 0 (.error ⟨"Failed to fetch"⟩)]
        = some w ∧
      w.anyOutstanding = true ∧ w.page.loadingVisible = false ∧
      ¬ (w.page.loadingVisible = true ↔ w.anyOutstanding = true) := by
  refine ⟨_, rfl, ?_, ?_, ?_⟩ <;> decide

/-- C8, amended: start from a state with the loading indicator hidden and no
invocation, and take any sequence of edits, clicks (with empty or non-empty
idea, overlapping or not) and settlings. In the state reached, a visible
indicator implies that an invocation is outstanding, so the indicator is never
visible before a valid submission; any further settling that completes an
invocation leaves the display `none`; and when no click with a non-empty idea
happened while an invocation was outstanding, the indicator is visible if and
only if an invocation is outstanding. -/
theorem loading_indicator_invariant (E : Engine) (w0 w : World) (es : List Event)
    (hhidden : w0.page.loadingDisplay = "none") (hcalls : w0.calls = [])
    (hrun : run E w0 es = some w) :
    (w.page.loadingVisible = true → w.anyOutstanding = true) ∧
    (∀ e w1, step E w e = some w1 → e.isClick = false →
      w1.calls.countP Status.outstanding < w.calls.countP Status.outstanding →
      w1.page.loadingDisplay = "none") ∧
    (noOverlap E w0 es = true →
      (w.page.loadingVisible = true ↔ w.anyOutstanding = true)) := by
  have ha := visible_imp_outstanding E es w0 w
    (by simp [Page.loadingVisible, hhidden]) hrun
  refine ⟨ha, ?_, fun hno => ⟨ha, ?_⟩⟩
  · intro e w1 hs hclick hlt
    rcases step_effect E w w1 e hs with ⟨hk, -, -⟩ | ⟨hk, -, -, -⟩ | ⟨-, -, hc⟩ | ⟨-, hd, -⟩
    · rw [hclick] at hk; exact absurd hk (by decide)
    · rw [hclick] at hk; exact absurd hk (by decide)
    · omega
    · exact hd
  · intro hout
    rw [anyOutstanding_iff_countP] at hout
    rcases noOverlap_invariant E es w0 w
      (Or.inl ⟨by simp [hcalls], by simp [Page.loadingVisible, hhidden]⟩) hno hrun
      with ⟨h0, -⟩ | ⟨-, hb⟩
    · omega
    · simp [Page.loadingVisible, hb]

theorem loading_indicator_invariant_witness :
    (Page.loadingVisible ⟨"", "block", "", ["⚠️ Please enter an idea first!"],
        [⟨"/recommend", "POST", [("Content-Type", "application/json")],
          "\x7b\"idea\":\"a coffee shop\"\x7d"⟩]⟩ = true
      ↔ World.anyOutstanding
          ⟨⟨"", "block", "", ["⚠️ Please enter an idea first!"],
            [⟨"/recommend", "POST", [("Content-Type", "application/json")],
              "\x7b\"idea\":\"a coffee shop\"\x7d"⟩]⟩,
            [.awaitJson ⟨.ok (.obj [])⟩, .returned]⟩ = true) :=
  (loading_indicator_invariant sampleEngine
    ⟨⟨"", "none", "", [], []⟩, []⟩
    ⟨⟨"", "block", "", ["⚠️ Please enter an idea first!"],
        [⟨"/recommend", "POST", [("Content-Type", "application/json")],
          "\x7b\"idea\":\"a coffee shop\"\x7d"⟩]⟩,
      [.awaitJson ⟨.ok (.obj [])⟩, .returned]⟩
    [.input "a coffee shop", .click, .input "", .click, .fetchSettled 0 (.ok ⟨.ok (.obj [])⟩)]
    rfl rfl rfl).2.2 rfl

/-- C10, refuted as stated: two clicks start requests 0 and 1; the `fetch` of
request 0 fulfils, then the `fetch` of request 1, then `response.json()` of
request 1 settles and last `response.json()` of request 0. Both invocations
have completed and the result markup is the rendering of response 0, not that of
response 1, although request 1 was issued later and its `fetch` fulfilled
later. -/
theorem later_fetch_does_not_win :
    ∃ w : World,
      run sampleEngine
        ⟨⟨"", "none", "", [], []⟩, []⟩
        [.input "a coffee shop", .click, .input "a tea shop", .click,
          .fetchSettled 0 (.ok ⟨.ok (.obj [("recommendations", .str "Sell artisan coffee")])⟩),
          .fetchSettled 1 (.ok ⟨.ok (.obj [("error", .str "Invalid idea")])⟩),
          .jsonSettled 1, .jsonSettled 0]
        = some w ∧
      w.anyOutstanding = false ∧
      w.page.resultHTML = "<h3>✅ Recommendations:</h3><p>Sell artisan coffee</p>" ∧
      (runToCompletion sampleEngine
          (.ok ⟨.ok (.obj [("error", .str "Invalid idea")])⟩)
          ⟨"a tea shop", "none", "", [], []⟩).1.resultHTML
        = "<p style=\"color:red;\">❌ Invalid idea</p>" ∧
      w.page.resultHTML
        ≠ (runToCompletion sampleEngine
            (.ok ⟨.ok (.obj [("error", .str "Invalid idea")])⟩)
            ⟨"a tea shop", "none", "", [], []⟩).1.resultHTML := by
  refine ⟨_, rfl, ?_, ?_, ?_, ?_⟩ <;> decide

/-- C10, amended: start from a state `w0` in which no invocation is outstanding.
A click with the non-empty idea `a` starts invocation `n` (the number of earlier
invocations); the outstanding invocations are resumed in any order `pre`; while
invocation `n` is still outstanding, suspended in either `await`, a click with
the non-empty idea `b` starts invocation `n + 1`; the outstanding invocations
are resumed in any order `post`, each resumption delivering the promise the
invocation awaits (`nets k` is the network outcome of invocation `k`). Once both
invocations have completed, the invocation resumed last is one of the two, and
the result markup is exactly the markup that this invocation leaves when it runs
alone with its outcome, on whatever page: the rendering of the invocation that
completed earlier is overwritten wholesale, whichever request was issued first
and whichever `fetch` fulfilled first. -/
theorem last_completion_wins (E : Engine) (w0 : World) (a b : String)
    (nets : Nat → Except Fault Response) (pre post : List Nat) (w1 w : World)
    (ha : a ≠ "") (hb : b ≠ "") (hquiet : w0.anyOutstanding = false)
    (hfirst : (run E w0 [.input a, .click]).bind
      (fun v => runSchedule E nets v pre) = some w1)
    (hoverlap : w1.anyOutstanding = true)
    (hsecond : (run E w1 [.input b, .click]).bind
      (fun v => runSchedule E nets v post) = some w)
    (hdone : w.anyOutstanding = false) :
    ∃ k, post.getLast? = some k ∧ (k = w0.calls.length ∨ k = w0.calls.length + 1) ∧
      w.page.loadingDisplay = "none" ∧
      ∀ q : Page, q.ideaInput ≠ "" →
        w.page.resultHTML = (runToCompletion E (nets k) q).1.resultHTML := by
  have _ := hoverlap
  have hquiet2 : ∀ (j : Nat) (s : Status), w0.calls[j]? = some s → s.outstanding = false := by
    intro j s hj
    cases hs : s.outstanding with
    | false => rfl
    | true =>
      have := anyOutstanding_of_getElem? w0 j s hj hs
      rw [hquiet] at this
      exact absurd this (by decide)
  obtain ⟨pa, hpa⟩ := run_input_click E w0 a ha
  rw [hpa] at hfirst
  simp only [Option.bind] at hfirst
  have hinv1 : ∀ (j : Nat) (response : Response),
      (w0.calls ++ [Status.awaitFetch])[j]? = some (.awaitJson response) →
        nets j = .ok response := by
    intro j response hj
    rw [List.getElem?_append] at hj
    split at hj
    · have := hquiet2 j _ hj
      simp [Status.outstanding] at this
    · cases hjl : j - w0.calls.length with
      | zero => simp [hjl] at hj
      | succ m => simp [hjl] at hj
  obtain ⟨hlen1, hinvw1, hback1⟩ :=
    runSchedule_invariant E nets pre ⟨pa, w0.calls ++ [.awaitFetch]⟩ w1 hinv1 hfirst
  obtain ⟨pb, hpb⟩ := run_input_click E w1 b hb
  rw [hpb] at hsecond
  simp only [Option.bind] at hsecond
  have hinv2 : ∀ (j : Nat) (response : Response),
      (w1.calls ++ [Status.awaitFetch])[j]? = some (.awaitJson response) →
        nets j = .ok response := by
    intro j response hj
    rw [List.getElem?_append] at hj
    split at hj
    · exact hinvw1 j response hj
    · cases hjl : j - w1.calls.length with
      | zero => simp [hjl] at hj
      | succ m => simp [hjl] at hj
  have hne : post ≠ [] := by
    rintro rfl
    simp only [runSchedule, Option.some.injEq] at hsecond
    subst hsecond
    simp [World.anyOutstanding, Status.outstanding] at hdone
  obtain ⟨k, hlast, ⟨s, hk, hs⟩, hload, hres⟩ :=
    runSchedule_last E nets post ⟨pb, w1.calls ++ [.awaitFetch]⟩ w hinv2 hsecond hne hdone
  refine ⟨k, hlast, ?_, hload, hres⟩
  simp only [List.length_append, List.length_singleton] at hlen1
  have hklt : k < w1.calls.length + 1 := by
    have := (List.getElem?_eq_some.mp hk).1
    simpa using this
  by_cases hk1 : k < w1.calls.length
  · left
    simp only [List.getElem?_append_left hk1] at hk
    obtain ⟨s0, hk0, hs0⟩ := hback1 k s hk hs
    by_cases hk2 : k < w0.calls.length
    · simp only [List.getElem?_append_left hk2] at hk0
      have := hquiet2 k s0 hk0
      rw [hs0] at this
      exact absurd this (by decide)
    · omega
  · right; omega

theorem last_completion_wins_witness :
    ∃ k, [1, 1, 0].getLast? = some k ∧ (k = 0 ∨ k = 0 + 1) ∧
      Page.loadingDisplay
        ⟨"a tea shop", "none", "<h3>✅ Recommendations:</h3><p>Sell artisan coffee</p>", [],
          [⟨"/recommend", "POST", [("Content-Type", "application/json")],
              "\x7b\"idea\":\"a coffee shop\"\x7d"⟩,
            ⟨"/recommend", "POST", [("Content-Type", "application/json")],
              "\x7b\"idea\":\"a tea shop\"\x7d"⟩]⟩ = "none" ∧
      ∀ q : Page, q.ideaInput ≠ "" →
        Page.resultHTML
          ⟨"a tea shop", "none", "<h3>✅ Recommendations:</h3><p>Sell artisan coffee</p>", [],
            [⟨"/recommend", "POST", [("Content-Type", "application/json")],
                "\x7b\"idea\":\"a coffee shop\"\x7d"⟩,
              ⟨"/recommend", "POST", [("Content-Type", "application/json")],
                "\x7b\"idea\":\"a tea shop\"\x7d"⟩]⟩
          = (runToCompletion sampleEngine
              ((fun n : Nat =>
                  if n = 0 then
                    Except.ok ⟨.ok (.obj [("recommendations", .str "Sell artisan coffee")])⟩
                  else Except.ok ⟨.ok (.obj [("error", .str "Invalid idea")])⟩) k)
              q).1.resultHTML :=
  last_completion_wins sampleEngine
    ⟨⟨"", "none", "", [], []⟩, []⟩
    "a coffee shop" "a tea shop"
    (fun n : Nat =>
      if n = 0 then Except.ok ⟨.ok (.obj [("recommendations", .str "Sell artisan coffee")])⟩
      else Except.ok ⟨.ok (.obj [("error", .str "Invalid idea")])⟩)
    [0] [1, 1, 0]
    ⟨⟨"a coffee shop", "block", "", [],
        [⟨"/recommend", "POST", [("Content-Type", "application/json")],
            "\x7b\"idea\":\"a coffee shop\"\x7d"⟩]⟩,
      [.awaitJson ⟨.ok (.obj [("recommendations", .str "Sell artisan coffee")])⟩]⟩
    ⟨⟨"a tea shop", "none", "<h3>✅ Recommendations:</h3><p>Sell artisan coffee</p>", [],
        [⟨"/recommend", "POST", [("Content-Type", "application/json")],
            "\x7b\"idea\":\"a coffee shop\"\x7d"⟩,
          ⟨"/recommend", "POST", [("Content-Type", "application/json")],
            "\x7b\"idea\":\"a tea shop\"\x7d"⟩]⟩,
      [.returned, .returned]⟩
    (by decide) (by decide) rfl rfl rfl rfl rfl

end AiJs
